import Mathlib

/-!
# Verification of `bitcoin/core/serialize.py`

A shallow embedding of the serialization primitive layer of
`python-bitcoinlib` (`src/bitcoin/core/serialize.py`) together with proofs
of its stated properties.

Modelling conventions:

* A byte is a `Nat` (the values produced by the code are always `< 256`);
  a byte string is a `List Nat`.
* A read stream (`BytesIO` positioned at the current cursor) is the list of
  bytes remaining after the cursor; `f.read(n)` returns `f.take n` and
  advances the cursor, leaving `f.drop n`.
* Python exceptions are modelled with `Except SerErr`.  Functions that
  write to a stream return the list of bytes written together with
  `Option SerErr`: `none` means normal return, `some e` means the
  exception `e` escaped after the listed bytes had already been written.
* `struct.pack`/`struct.unpack` with formats `<H`, `<I`, `<Q`, `<i` are
  little-endian fixed-width conversions; `struct.pack` raises
  `struct.error` when the integer does not fit the format, which we model
  with the `structError` constructor.
-/

/-- Little-endian byte decomposition: `le_bytes k v` is `struct.pack` of
`v` into `k` little-endian bytes (`v % 256^k` when `v` overflows; the
overflow case never arises at the call sites used in proofs). -/
def le_bytes : Nat → Nat → List Nat
  | 0, _ => []
  | k + 1, v => (v % 256) :: le_bytes k (v / 256)

/-- Little-endian byte recomposition: the integer denoted by a
little-endian byte string, as computed by `struct.unpack`. -/
def le_value (bs : List Nat) : Nat :=
  bs.foldr (fun b acc => b + 256 * acc) 0

theorem le_bytes_length (k v : Nat) : (le_bytes k v).length = k := by
  induction k generalizing v with
  | zero => rfl
  | succ k ih => simp [le_bytes, ih]

theorem le_value_le_bytes (k v : Nat) (h : v < 256 ^ k) :
    le_value (le_bytes k v) = v := by
  induction k generalizing v with
  | zero =>
    simp only [pow_zero, Nat.lt_one_iff] at h
    simp [le_bytes, le_value, h]
  | succ k ih =>
    have hd : v / 256 < 256 ^ k := by
      rw [Nat.div_lt_iff_lt_mul (by norm_num)]
      calc v < 256 ^ (k + 1) := h
        _ = 256 ^ k * 256 := by ring
    simp only [le_bytes, le_value, List.foldr_cons]
    have := ih (v / 256) hd
    simp only [le_value] at this
    rw [this]
    omega

/-- `MAX_SIZE = 0x02000000`, the global ceiling on a single bounded read. -/
def MAX_SIZE : Nat := 0x02000000

/-- The exceptions raised by the serialization layer.

* `serializationError` — `SerializationError('Asked to read 0x%x bytes;
  MAX_SIZE exceeded')` (the format is never applied, so the message is that
  constant string; we keep only the constructor).
* `truncation requested actual` — `SerializationTruncationError` with the
  message `'Asked to read %i bytes, but only got %i' % (n, len(r))`; the
  two counts it carries are recorded as fields.
* `valueError` — `ValueError('varint must be non-negative integer')`.
* `structError` — `struct.error` from an out-of-range `struct.pack`. -/
inductive SerErr : Type where
  | serializationError : SerErr
  | truncation (requested actual : Nat) : SerErr
  | valueError : SerErr
  | structError : SerErr
deriving DecidableEq, Repr

/-- `ser_read(f, n)`: rejects `n > MAX_SIZE` before touching the stream,
otherwise reads `r = f.read(n)` and fails with a truncation error when
fewer than `n` bytes were obtained.  The second component is the stream
left behind (unchanged when the oversize check fires, advanced past the
consumed bytes otherwise). -/
def ser_read (f : List Nat) (n : Nat) : Except SerErr (List Nat) × List Nat :=
  if n > MAX_SIZE then
    (.error .serializationError, f)
  else
    let r := f.take n
    if r.length < n then
      (.error (.truncation n r.length), f.drop n)
    else
      (.ok r, f.drop n)

namespace VarIntSerializer

/-- `VarIntSerializer.stream_serialize(i, f)`: the bytes written to `f`
paired with the exception that escaped, if any.  The branches mirror the
source: negative values raise `ValueError` before writing; otherwise the
smallest tier is chosen; in the final tier `bchr(0xff)` is written first
and then `struct.pack(b'<Q', i)` raises `struct.error` when `i` does not
fit in 64 bits. -/
def stream_serialize (i : Int) : List Nat × Option SerErr :=
  if i < 0 then
    ([], some .valueError)
  else if i < 0xfd then
    ([i.toNat], none)
  else if i ≤ 0xffff then
    (0xfd :: le_bytes 2 i.toNat, none)
  else if i ≤ 0xffffffff then
    (0xfe :: le_bytes 4 i.toNat, none)
  else if i ≤ 0xffffffffffffffff then
    (0xff :: le_bytes 8 i.toNat, none)
  else
    ([0xff], some .structError)

/-- `VarIntSerializer.serialize(i)`: run `stream_serialize` against a fresh
`BytesIO` and return its contents (an escaping exception propagates). -/
def serialize (i : Int) : Except SerErr (List Nat) :=
  match stream_serialize i with
  | (w, none) => .ok w
  | (_, some e) => .error e

/-- `VarIntSerializer.stream_deserialize(f)`: read one marker byte; a value
below `0xfd` is returned directly, the markers `0xfd`/`0xfe`/`0xff` are
followed by a 2, 4 or 8 byte little-endian value.  Returns the decoded
integer and the remaining stream. -/
def stream_deserialize (f : List Nat) : Except SerErr (Nat × List Nat) :=
  match ser_read f 1 with
  | (.error e, _) => .error e
  | (.ok b, f₁) =>
    let r := b.headD 0
    if r < 0xfd then
      .ok (r, f₁)
    else if r = 0xfd then
      match ser_read f₁ 2 with
      | (.error e, _) => .error e
      | (.ok bs, f₂) => .ok (le_value bs, f₂)
    else if r = 0xfe then
      match ser_read f₁ 4 with
      | (.error e, _) => .error e
      | (.ok bs, f₂) => .ok (le_value bs, f₂)
    else
      match ser_read f₁ 8 with
      | (.error e, _) => .error e
      | (.ok bs, f₂) => .ok (le_value bs, f₂)

/-- `VarIntSerializer.deserialize(buf)`: wrap the buffer in a fresh
`BytesIO` and `stream_deserialize`; trailing bytes are simply left
unconsumed. -/
def deserialize (buf : List Nat) : Except SerErr Nat :=
  match stream_deserialize buf with
  | .error e => .error e
  | .ok (v, _) => .ok v

end VarIntSerializer

namespace BytesSerializer

/-- `BytesSerializer.stream_serialize(b, f)`: a VarInt length prefix
followed by the raw bytes. -/
def stream_serialize (b : List Nat) : List Nat × Option SerErr :=
  match VarIntSerializer.stream_serialize (b.length : Int) with
  | (w, none) => (w ++ b, none)
  | (w, some e) => (w, some e)

/-- `BytesSerializer.serialize(b)`. -/
def serialize (b : List Nat) : Except SerErr (List Nat) :=
  match stream_serialize b with
  | (w, none) => .ok w
  | (_, some e) => .error e

/-- `BytesSerializer.stream_deserialize(f)`: read a VarInt length `l`, then
`ser_read(f, l)`. -/
def stream_deserialize (f : List Nat) : Except SerErr (List Nat × List Nat) :=
  match VarIntSerializer.stream_deserialize f with
  | .error e => .error e
  | .ok (l, f₁) =>
    match ser_read f₁ l with
    | (.error e, _) => .error e
    | (.ok r, f₂) => .ok (r, f₂)

/-- `BytesSerializer.deserialize(buf)`. -/
def deserialize (buf : List Nat) : Except SerErr (List Nat) :=
  match stream_deserialize buf with
  | .error e => .error e
  | .ok (v, _) => .ok v

end BytesSerializer

namespace VectorSerializer

/-- The loop body of `VectorSerializer.stream_deserialize`: run the element
deserializer `inner_cls.stream_deserialize` exactly `n` times, appending
each result in order; the first element failure aborts the loop and
propagates. -/
def readElems (inner : List Nat → Except SerErr (α × List Nat)) :
    Nat → List Nat → Except SerErr (List α × List Nat)
  | 0, f => .ok ([], f)
  | k + 1, f =>
    match inner f with
    | .error e => .error e
    | .ok (x, f₁) =>
      match readElems inner k f₁ with
      | .error e => .error e
      | .ok (xs, f₂) => .ok (x :: xs, f₂)

/-- `VectorSerializer.stream_deserialize(inner_cls, f)`: read a VarInt
count `n`, then deserialize `n` elements with `inner_cls`.  The element
deserializer is passed as a function, matching the `inner_cls` parameter
of the source. -/
def stream_deserialize (inner : List Nat → Except SerErr (α × List Nat))
    (f : List Nat) : Except SerErr (List α × List Nat) :=
  match VarIntSerializer.stream_deserialize f with
  | .error e => .error e
  | .ok (n, f₁) => readElems inner n f₁

end VectorSerializer

/-- `DecChain inner f xs f'` holds when running the element deserializer
`inner` repeatedly from stream `f` succeeds, yielding the elements `xs` in
order and leaving the stream `f'`. -/
inductive DecChain (inner : List Nat → Except SerErr (α × List Nat)) :
    List Nat → List α → List Nat → Prop where
  | nil (f : List Nat) : DecChain inner f [] f
  | cons (f : List Nat) (x : α) (f₁ : List Nat) (xs : List α) (f₂ : List Nat)
      (hx : inner f = .ok (x, f₁)) (hxs : DecChain inner f₁ xs f₂) :
      DecChain inner f (x :: xs) f₂

/-- `struct.unpack(b'<i', bs)`: a 4-byte little-endian two's-complement
signed integer. -/
def int_from_le4 (bs : List Nat) : Int :=
  let v := le_value bs
  if v < 2 ^ 31 then (v : Int) else (v : Int) - 2 ^ 32

namespace intVectorSerialzer

/-- The loop of `intVectorSerialzer.stream_deserialize`: build the local
list `ints` of `struct.unpack(b'<i', ser_read(f, 4))` results. -/
def readInts : Nat → List Nat → Except SerErr (List Int × List Nat)
  | 0, f => .ok ([], f)
  | k + 1, f =>
    match ser_read f 4 with
    | (.error e, _) => .error e
    | (.ok bs, f₁) =>
      match readInts k f₁ with
      | .error e => .error e
      | .ok (xs, f₂) => .ok (int_from_le4 bs :: xs, f₂)

/-- `intVectorSerialzer.stream_deserialize(f)`: read the VarInt count,
accumulate the parsed integers into the local list `ints` — and then fall
off the end of the function without a `return` statement, so the Python
call evaluates to `None`.  The successful result is therefore modelled as
`none : Option (List Int)`; the locally built list is discarded. -/
def stream_deserialize (f : List Nat) :
    Except SerErr (Option (List Int) × List Nat) :=
  match VarIntSerializer.stream_deserialize f with
  | .error e => .error e
  | .ok (l, f₁) =>
    match readInts l f₁ with
    | .error e => .error e
    | .ok (_ints, f₂) => .ok (none, f₂)

end intVectorSerialzer

/-- A `Serializable` instance, for the purpose of the derived `__eq__` and
`__hash__`: it is characterised by its concrete class (a class identifier)
and the byte string its `serialize()` returns.  The subclass relation
between class identifiers is a parameter `issubclass` (always reflexive in
Python). -/
structure SerializableInst where
  cls : Nat
  serialized : List Nat
deriving DecidableEq, Repr

/-- The result of a Python `__eq__` call: a boolean, or the
`NotImplemented` sentinel. -/
inductive PyEqResult : Type where
  | bool (b : Bool) : PyEqResult
  | notImplemented : PyEqResult
deriving DecidableEq, Repr

namespace Serializable

/-- `Serializable.__eq__`: if `other` is not an instance of `self`'s class
and `self` is not an instance of `other`'s class, return `NotImplemented`;
otherwise compare `self.serialize() == other.serialize()`.
`isinstance(x, C)` for a direct instance `x` of class `D` is
`issubclass D C`. -/
def eq (issubclass : Nat → Nat → Bool) (self other : SerializableInst) :
    PyEqResult :=
  if ¬ issubclass other.cls self.cls ∧ ¬ issubclass self.cls other.cls then
    .notImplemented
  else
    .bool (self.serialized == other.serialized)

/-- The value of the Python expression `self == other` for two
`Serializable` instances: Python tries `self.__eq__(other)`, then the
reflected `other.__eq__(self)`, and if both return `NotImplemented` falls
back to identity (`self is other`, passed in as `sameObject`). -/
def pyEq (issubclass : Nat → Nat → Bool) (self other : SerializableInst)
    (sameObject : Bool) : Bool :=
  match eq issubclass self other with
  | .bool b => b
  | .notImplemented =>
    match eq issubclass other self with
    | .bool b => b
    | .notImplemented => sameObject

/-- `Serializable.__hash__`: `hash(self.serialize())`, where `hash` is
Python's built-in hash on bytes, modelled as an arbitrary function `h` of
the serialized byte string. -/
def hashv (h : List Nat → Int) (self : SerializableInst) : Int :=
  h self.serialized

end Serializable

/-! ## Helper lemmas -/

theorem ser_read_ok (f : List Nat) (n : Nat) (hn : n ≤ MAX_SIZE)
    (hl : n ≤ f.length) : ser_read f n = (.ok (f.take n), f.drop n) := by
  have h1 : ¬ n > MAX_SIZE := by omega
  have h2 : (f.take n).length = n := by rw [List.length_take]; omega
  simp [ser_read, h1, h2]

theorem varint_decode_direct (b : Nat) (t : List Nat) (hb : b < 0xfd) :
    VarIntSerializer.stream_deserialize (b :: t) = .ok (b, t) := by
  have h1 : ser_read (b :: t) 1 = (.ok [b], t) := by
    rw [ser_read_ok _ _ (by norm_num [MAX_SIZE]) (by simp)]; rfl
  simp [VarIntSerializer.stream_deserialize, h1, hb]

theorem varint_decode_fd (bs t : List Nat) (hbs : bs.length = 2) :
    VarIntSerializer.stream_deserialize (0xfd :: (bs ++ t)) =
      .ok (le_value bs, t) := by
  have h1 : ser_read (0xfd :: (bs ++ t)) 1 = (.ok [0xfd], bs ++ t) := by
    rw [ser_read_ok _ _ (by norm_num [MAX_SIZE]) (by simp)]; rfl
  have h2 : ser_read (bs ++ t) 2 = (.ok bs, t) := by
    rw [ser_read_ok _ _ (by norm_num [MAX_SIZE]) (by simp [hbs]),
      List.take_left' hbs, List.drop_left' hbs]
  simp [VarIntSerializer.stream_deserialize, h1, h2]

theorem varint_decode_fe (bs t : List Nat) (hbs : bs.length = 4) :
    VarIntSerializer.stream_deserialize (0xfe :: (bs ++ t)) =
      .ok (le_value bs, t) := by
  have h1 : ser_read (0xfe :: (bs ++ t)) 1 = (.ok [0xfe], bs ++ t) := by
    rw [ser_read_ok _ _ (by norm_num [MAX_SIZE]) (by simp)]; rfl
  have h2 : ser_read (bs ++ t) 4 = (.ok bs, t) := by
    rw [ser_read_ok _ _ (by norm_num [MAX_SIZE]) (by simp [hbs]),
      List.take_left' hbs, List.drop_left' hbs]
  simp [VarIntSerializer.stream_deserialize, h1, h2]

theorem varint_decode_ff (bs t : List Nat) (hbs : bs.length = 8) :
    VarIntSerializer.stream_deserialize (0xff :: (bs ++ t)) =
      .ok (le_value bs, t) := by
  have h1 : ser_read (0xff :: (bs ++ t)) 1 = (.ok [0xff], bs ++ t) := by
    rw [ser_read_ok _ _ (by norm_num [MAX_SIZE]) (by simp)]; rfl
  have h2 : ser_read (bs ++ t) 8 = (.ok bs, t) := by
    rw [ser_read_ok _ _ (by norm_num [MAX_SIZE]) (by simp [hbs]),
      List.take_left' hbs, List.drop_left' hbs]
  simp [VarIntSerializer.stream_deserialize, h1, h2]

theorem varint_serialize_none (i : Int) (h0 : 0 ≤ i)
    (h1 : i ≤ 0xffffffffffffffff) :
    (VarIntSerializer.stream_serialize i).2 = none := by
  unfold VarIntSerializer.stream_serialize
  split_ifs <;> first | rfl | omega

theorem varint_roundtrip_aux (i : Int) (h0 : 0 ≤ i)
    (h1 : i ≤ 0xffffffffffffffff) (t : List Nat) :
    VarIntSerializer.stream_deserialize
        ((VarIntSerializer.stream_serialize i).1 ++ t) = .ok (i.toNat, t) := by
  unfold VarIntSerializer.stream_serialize
  by_cases h2 : i < 0xfd
  · rw [if_neg (by omega), if_pos h2]
    exact varint_decode_direct _ _ (by omega)
  · by_cases h3 : i ≤ 0xffff
    · rw [if_neg (by omega), if_neg h2, if_pos h3]
      show VarIntSerializer.stream_deserialize
        (0xfd :: (le_bytes 2 i.toNat ++ t)) = _
      rw [varint_decode_fd _ _ (le_bytes_length 2 _),
        le_value_le_bytes 2 _ (by omega)]
    · by_cases h4 : i ≤ 0xffffffff
      · rw [if_neg (by omega), if_neg h2, if_neg h3, if_pos h4]
        show VarIntSerializer.stream_deserialize
          (0xfe :: (le_bytes 4 i.toNat ++ t)) = _
        rw [varint_decode_fe _ _ (le_bytes_length 4 _),
          le_value_le_bytes 4 _ (by omega)]
      · rw [if_neg (by omega), if_neg h2, if_neg h3, if_neg h4, if_pos h1]
        show VarIntSerializer.stream_deserialize
          (0xff :: (le_bytes 8 i.toNat ++ t)) = _
        rw [varint_decode_ff _ _ (le_bytes_length 8 _),
          le_value_le_bytes 8 _ (by omega)]

/-! ## Claims -/

/-- C1: VarInt round-trip — for every `n` with `0 ≤ n ≤ 2^64 - 1`,
`stream_serialize n` succeeds (raises nothing) and `stream_deserialize` of
the bytes it produced yields `n` back, consuming exactly those bytes. -/
theorem C1_varint_roundtrip (n : Nat) (h : n ≤ 2 ^ 64 - 1) :
    (VarIntSerializer.stream_serialize (n : Int)).2 = none ∧
    VarIntSerializer.stream_deserialize
        ((VarIntSerializer.stream_serialize (n : Int)).1) = .ok (n, []) := by
  have h1 : (n : Int) ≤ 0xffffffffffffffff := by
    have : (n : Int) ≤ ((2 ^ 64 - 1 : Nat) : Int) := by exact_mod_cast h
    omega
  refine ⟨varint_serialize_none _ (by positivity) h1, ?_⟩
  have := varint_roundtrip_aux (n : Int) (by positivity) h1 []
  simpa using this

theorem C1_witness :
    (VarIntSerializer.stream_serialize ((70000 : Nat) : Int)).2 = none ∧
    VarIntSerializer.stream_deserialize
        ((VarIntSerializer.stream_serialize ((70000 : Nat) : Int)).1) =
      .ok (70000, []) :=
  C1_varint_roundtrip 70000 (by norm_num)

/-- C2 counterexample: the claim quantifies over every non-negative
integer, but at `i = 2^64` the encoder does not emit the 9-byte form —
after writing the `0xff` marker, `struct.pack(b'<Q', i)` raises
`struct.error`, so the call fails. -/
theorem C2_counterexample :
    VarIntSerializer.stream_serialize ((18446744073709551616 : Int)) =
      ([0xff], some SerErr.structError) := by
  unfold VarIntSerializer.stream_serialize
  norm_num

/-- C2 (amended): for `0 ≤ i ≤ 2^64 - 1` the encoder emits the smallest
applicable tier — the value itself in 1 byte when `i < 0xfd`; marker
`0xfd` plus a 2-byte little-endian value when `0xfd ≤ i ≤ 0xffff`; marker
`0xfe` plus a 4-byte little-endian value when `0x10000 ≤ i ≤ 0xffffffff`;
marker `0xff` plus an 8-byte little-endian value when
`0xffffffff < i ≤ 2^64 - 1` (values `≥ 2^64` instead fail with
`struct.error` after the marker byte). -/
theorem C2_varint_canonical (i : Int) (h0 : 0 ≤ i) :
    (i < 0xfd →
      VarIntSerializer.stream_serialize i = ([i.toNat], none)) ∧
    (0xfd ≤ i → i ≤ 0xffff →
      VarIntSerializer.stream_serialize i =
        (0xfd :: le_bytes 2 i.toNat, none)) ∧
    (0x10000 ≤ i → i ≤ 0xffffffff →
      VarIntSerializer.stream_serialize i =
        (0xfe :: le_bytes 4 i.toNat, none)) ∧
    (0xffffffff < i → i ≤ 0xffffffffffffffff →
      VarIntSerializer.stream_serialize i =
        (0xff :: le_bytes 8 i.toNat, none)) := by
  refine ⟨fun h2 => ?_, fun h2 h3 => ?_, fun h2 h3 => ?_, fun h2 h3 => ?_⟩ <;>
    unfold VarIntSerializer.stream_serialize
  · rw [if_neg (by omega), if_pos h2]
  · rw [if_neg (by omega), if_neg (by omega), if_pos h3]
  · rw [if_neg (by omega), if_neg (by omega), if_neg (by omega), if_pos h3]
  · rw [if_neg (by omega), if_neg (by omega), if_neg (by omega),
      if_neg (by omega), if_pos h3]

theorem C2_witness :
    VarIntSerializer.stream_serialize (0xfd : Int) =
      (0xfd :: le_bytes 2 (0xfd : Int).toNat, none) :=
  (C2_varint_canonical 0xfd (by norm_num)).2.1 (by norm_num) (by norm_num)

/-- C3: oversize rejection — a request of `n > MAX_SIZE` bytes fails with
`SerializationError` with the stream left untouched (no bytes consumed),
while a request of exactly `MAX_SIZE` bytes is never rejected by this
check. -/
theorem C3_oversize_rejection (f : List Nat) (n : Nat) :
    (n > MAX_SIZE → ser_read f n = (.error SerErr.serializationError, f)) ∧
    (ser_read f MAX_SIZE).1 ≠ .error SerErr.serializationError := by
  constructor
  · intro h
    simp [ser_read, h]
  · by_cases h : f.length < MAX_SIZE <;> simp [ser_read, h]

theorem C3_witness :
    ser_read [0, 1, 2] 0x02000001 =
      (.error SerErr.serializationError, [0, 1, 2]) :=
  (C3_oversize_rejection [0, 1, 2] 0x02000001).1 (by norm_num [MAX_SIZE])

/-- C4: truncation detection — when the stream holds fewer than `n`
available bytes (and `n` is within the ceiling), `ser_read` fails with the
truncation error carrying both the requested count `n` and the actual
count obtained (all the remaining bytes), and that error differs from the
oversize `SerializationError`. -/
theorem C4_truncation_detection (f : List Nat) (n : Nat) (hn : n ≤ MAX_SIZE)
    (hf : f.length < n) :
    ser_read f n = (.error (SerErr.truncation n f.length), f.drop n) ∧
    SerErr.truncation n f.length ≠ SerErr.serializationError := by
  have h1 : f.take n = f := List.take_of_length_le (by omega)
  refine ⟨?_, by simp⟩
  unfold ser_read
  rw [if_neg (by omega), h1, if_pos hf]

theorem C4_witness :
    ser_read [7, 8, 9] 5 = (.error (SerErr.truncation 5 3), []) ∧
    SerErr.truncation 5 3 ≠ SerErr.serializationError :=
  C4_truncation_detection [7, 8, 9] 5 (by norm_num [MAX_SIZE]) (by simp)

/-- C9: VarInt negative rejection — a negative argument fails with
`ValueError` and nothing is written to the stream. -/
theorem C9_negative_rejection (i : Int) (h : i < 0) :
    VarIntSerializer.stream_serialize i = ([], some SerErr.valueError) := by
  unfold VarIntSerializer.stream_serialize
  rw [if_pos h]

theorem C9_witness :
    VarIntSerializer.stream_serialize (-1) = ([], some SerErr.valueError) :=
  C9_negative_rejection (-1) (by norm_num)

theorem readElems_ok_iff {α : Type} (inner : List Nat → Except SerErr (α × List Nat))
    (n : Nat) (f : List Nat) (xs : List α) (f' : List Nat) :
    VectorSerializer.readElems inner n f = .ok (xs, f') ↔
      (xs.length = n ∧ DecChain inner f xs f') := by
  induction n generalizing f xs with
  | zero =>
    constructor
    · intro h
      simp only [VectorSerializer.readElems, Except.ok.injEq, Prod.mk.injEq] at h
      obtain ⟨h1, h2⟩ := h
      subst h1; subst h2
      exact ⟨rfl, DecChain.nil f⟩
    · rintro ⟨hlen, hchain⟩
      cases hchain with
      | nil => rfl
      | cons _ _ _ _ _ _ _ => simp at hlen
  | succ k ih =>
    constructor
    · intro h
      cases hInner : inner f with
      | error e =>
        simp only [VectorSerializer.readElems, hInner] at h
        exact absurd h (by simp)
      | ok xf =>
        obtain ⟨x, f₁⟩ := xf
        cases hRest : VectorSerializer.readElems inner k f₁ with
        | error e =>
          simp only [VectorSerializer.readElems, hInner, hRest] at h
          exact absurd h (by simp)
        | ok ysf =>
          obtain ⟨ys, f₂⟩ := ysf
          simp only [VectorSerializer.readElems, hInner, hRest,
            Except.ok.injEq, Prod.mk.injEq] at h
          obtain ⟨h1, h2⟩ := h
          subst h2
          obtain ⟨hlen, hchain⟩ := (ih f₁ ys).mp hRest
          subst h1
          exact ⟨by simp [hlen], DecChain.cons f x f₁ ys _ hInner hchain⟩
    · rintro ⟨hlen, hchain⟩
      cases hchain with
      | nil => simp at hlen
      | cons _ x f₁ ys f₂ hx hys =>
        simp only [List.length_cons, Nat.succ.injEq] at hlen
        simp only [VectorSerializer.readElems, hx]
        rw [(ih f₁ ys).mpr ⟨hlen, hys⟩]

theorem readElems_error {α : Type} (inner : List Nat → Except SerErr (α × List Nat))
    (n : Nat) (f : List Nat) (e : SerErr)
    (h : VectorSerializer.readElems inner n f = .error e) :
    ∃ ys f₂, DecChain inner f ys f₂ ∧ ys.length < n ∧ inner f₂ = .error e := by
  induction n generalizing f with
  | zero => exact absurd h (by simp [VectorSerializer.readElems])
  | succ k ih =>
    cases hInner : inner f with
    | error e' =>
      simp only [VectorSerializer.readElems, hInner, Except.error.injEq] at h
      subst h
      exact ⟨[], f, DecChain.nil f, by simp, hInner⟩
    | ok xf =>
      obtain ⟨x, f₁⟩ := xf
      cases hRest : VectorSerializer.readElems inner k f₁ with
      | error e' =>
        simp only [VectorSerializer.readElems, hInner, hRest,
          Except.error.injEq] at h
        subst h
        obtain ⟨ys, f₂, hchain, hlt, hfail⟩ := ih f₁ hRest
        exact ⟨x :: ys, f₂, DecChain.cons f x f₁ ys f₂ hInner hchain,
          by simpa using hlt, hfail⟩
      | ok ysf =>
        obtain ⟨ys, f₂⟩ := ysf
        simp only [VectorSerializer.readElems, hInner, hRest] at h
        exact absurd h (by simp)

/-- C5: generic vector decode — on success the result holds exactly the
VarInt-prefixed number of elements, obtained by running the element
deserializer that many times in order (`DecChain`); on failure the error
is either the count decode's failure or the failing element decode's own
error, reached after a strictly shorter chain of successful element
decodes, and no partial list is returned. -/
theorem C5_vector_decode {α : Type}
    (inner : List Nat → Except SerErr (α × List Nat)) (f : List Nat) :
    (∀ xs f', VectorSerializer.stream_deserialize inner f = .ok (xs, f') →
      ∃ f₁, VarIntSerializer.stream_deserialize f = .ok (xs.length, f₁) ∧
        DecChain inner f₁ xs f') ∧
    (∀ e, VectorSerializer.stream_deserialize inner f = .error e →
      VarIntSerializer.stream_deserialize f = .error e ∨
      ∃ n f₁ ys f₂, VarIntSerializer.stream_deserialize f = .ok (n, f₁) ∧
        DecChain inner f₁ ys f₂ ∧ ys.length < n ∧ inner f₂ = .error e) := by
  constructor
  · intro xs f' h
    cases hv : VarIntSerializer.stream_deserialize f with
    | error e =>
      simp only [VectorSerializer.stream_deserialize, hv] at h
      exact absurd h (by simp)
    | ok nf =>
      obtain ⟨n, f₁⟩ := nf
      simp only [VectorSerializer.stream_deserialize, hv] at h
      obtain ⟨hlen, hchain⟩ := (readElems_ok_iff inner n f₁ xs f').mp h
      subst hlen
      exact ⟨f₁, rfl, hchain⟩
  · intro e h
    cases hv : VarIntSerializer.stream_deserialize f with
    | error e' =>
      simp only [VectorSerializer.stream_deserialize, hv,
        Except.error.injEq] at h
      subst h
      exact Or.inl rfl
    | ok nf =>
      obtain ⟨n, f₁⟩ := nf
      simp only [VectorSerializer.stream_deserialize, hv] at h
      obtain ⟨ys, f₂, hchain, hlt, hfail⟩ := readElems_error inner n f₁ e h
      exact Or.inr ⟨n, f₁, ys, f₂, rfl, hchain, hlt, hfail⟩

theorem C5_witness :
    ∃ f₁, VarIntSerializer.stream_deserialize [2, 5, 7] = .ok (2, f₁) ∧
      DecChain VarIntSerializer.stream_deserialize f₁ [5, 7] [] :=
  (C5_vector_decode VarIntSerializer.stream_deserialize [2, 5, 7]).1 [5, 7] []
    (by rfl)

/-- C7: the 32-bit signed integer vector decode builds the local list of
parsed integers but falls off the end of the function, so it never returns
that list — every successful call yields Python `None`, never a decoded
sequence (shown concretely on the encoding of the vector `[5]`).  The
source even appends the raw 1-tuples that `struct.unpack` returns, an
unobservable difference since the list is discarded. -/
theorem C7_intvector_decode_discards :
    (∀ f v f', intVectorSerialzer.stream_deserialize f = .ok (v, f') →
      v = none) ∧
    intVectorSerialzer.stream_deserialize [1, 5, 0, 0, 0] =
      .ok (none, []) := by
  refine ⟨fun f v f' h => ?_, by rfl⟩
  cases hv : VarIntSerializer.stream_deserialize f with
  | error e =>
    simp only [intVectorSerialzer.stream_deserialize, hv] at h
    exact absurd h (by simp)
  | ok nf =>
    obtain ⟨n, f₁⟩ := nf
    cases hr : intVectorSerialzer.readInts n f₁ with
    | error e =>
      simp only [intVectorSerialzer.stream_deserialize, hv, hr] at h
      exact absurd h (by simp)
    | ok r =>
      obtain ⟨ints, f₂⟩ := r
      simp only [intVectorSerialzer.stream_deserialize, hv, hr,
        Except.ok.injEq, Prod.mk.injEq] at h
      exact h.1.symm

theorem C7_witness : (none : Option (List Int)) = none :=
  C7_intvector_decode_discards.1 [1, 5, 0, 0, 0] none [] (by rfl)

/-- C8: VarInt decoding accepts any representable tier — a first byte
below `0xfd` is itself the value, and the markers `0xfd`/`0xfe`/`0xff`
are followed by a 2-, 4- or 8-byte little-endian value with no minimality
check; in particular the non-minimal 3-byte encoding of 5 decodes to 5. -/
theorem C8_noncanonical_accepted :
    (∀ b t, b < 0xfd →
      VarIntSerializer.stream_deserialize (b :: t) = .ok (b, t)) ∧
    (∀ b0 b1 t, VarIntSerializer.stream_deserialize (0xfd :: b0 :: b1 :: t) =
      .ok (b0 + 256 * b1, t)) ∧
    (∀ b0 b1 b2 b3 t,
      VarIntSerializer.stream_deserialize (0xfe :: b0 :: b1 :: b2 :: b3 :: t) =
        .ok (b0 + 256 * (b1 + 256 * (b2 + 256 * b3)), t)) ∧
    (∀ b0 b1 b2 b3 b4 b5 b6 b7 t,
      VarIntSerializer.stream_deserialize
          (0xff :: b0 :: b1 :: b2 :: b3 :: b4 :: b5 :: b6 :: b7 :: t) =
        .ok (b0 + 256 * (b1 + 256 * (b2 + 256 * (b3 + 256 * (b4 + 256 *
          (b5 + 256 * (b6 + 256 * b7)))))), t)) ∧
    VarIntSerializer.deserialize [0xfd, 5, 0] = .ok 5 := by
  refine ⟨varint_decode_direct, fun b0 b1 t => ?_, fun b0 b1 b2 b3 t => ?_,
    fun b0 b1 b2 b3 b4 b5 b6 b7 t => ?_, by rfl⟩
  · have := varint_decode_fd [b0, b1] t rfl
    simpa [le_value] using this
  · have := varint_decode_fe [b0, b1, b2, b3] t rfl
    simpa [le_value] using this
  · have := varint_decode_ff [b0, b1, b2, b3, b4, b5, b6, b7] t rfl
    simpa [le_value] using this

theorem C8_witness :
    VarIntSerializer.stream_deserialize [0xfd, 5, 0] = .ok (5 + 256 * 0, []) :=
  C8_noncanonical_accepted.2.1 5 0 []

/-- C6 counterexample: two instances of distinct unrelated concrete
variants (class identifiers `0` and `1`, subclass relation plain equality,
so neither is an instance of the other's class) with identical serialized
bytes `[1]`.  The claim says their equality comparison returns true, but
`__eq__` returns `NotImplemented` in both directions and Python's `==`
falls back to identity, yielding `False` for these two distinct objects. -/
theorem C6_counterexample :
    (SerializableInst.mk 0 [1]).serialized =
        (SerializableInst.mk 1 [1]).serialized ∧
    Serializable.eq (fun a b => a == b)
        (SerializableInst.mk 0 [1]) (SerializableInst.mk 1 [1]) =
      PyEqResult.notImplemented ∧
    Serializable.pyEq (fun a b => a == b)
        (SerializableInst.mk 0 [1]) (SerializableInst.mk 1 [1]) false =
      false := by
  refine ⟨rfl, rfl, rfl⟩

/-- C6 (amended): when one operand is an instance of the other's class
(the subclass test succeeds in at least one direction), `__eq__` — and
hence `==` — returns true exactly when the serialized byte forms are
identical; when neither is an instance of the other's class, `__eq__`
returns `NotImplemented` in both directions and `==` falls back to object
identity, ignoring the serialized bytes; `__hash__` is derived from the
serialized bytes, consistent with the byte-comparison equality. -/
theorem C6_structural_equality (issubclass : Nat → Nat → Bool)
    (self other : SerializableInst) (h : List Nat → Int)
    (sameObject : Bool) :
    (issubclass other.cls self.cls = true ∨
        issubclass self.cls other.cls = true →
      Serializable.eq issubclass self other =
          .bool (self.serialized == other.serialized) ∧
      Serializable.pyEq issubclass self other sameObject =
        (self.serialized == other.serialized)) ∧
    (issubclass other.cls self.cls = false →
        issubclass self.cls other.cls = false →
      Serializable.eq issubclass self other = .notImplemented ∧
      Serializable.pyEq issubclass self other sameObject = sameObject) ∧
    (self.serialized = other.serialized →
      Serializable.hashv h self = Serializable.hashv h other) := by
  refine ⟨fun hsub => ?_, fun h1 h2 => ?_, fun hser => ?_⟩
  · have heq : Serializable.eq issubclass self other =
        .bool (self.serialized == other.serialized) := by
      unfold Serializable.eq
      rw [if_neg (by tauto)]
    exact ⟨heq, by simp [Serializable.pyEq, heq]⟩
  · have heq : Serializable.eq issubclass self other = .notImplemented := by
      unfold Serializable.eq
      rw [if_pos (by simp [h1, h2])]
    have heq' : Serializable.eq issubclass other self = .notImplemented := by
      unfold Serializable.eq
      rw [if_pos (by simp [h1, h2])]
    exact ⟨heq, by simp [Serializable.pyEq, heq, heq']⟩
  · simp [Serializable.hashv, hser]

theorem C6_witness :
    Serializable.eq (fun a b => a == b)
        (SerializableInst.mk 0 [1]) (SerializableInst.mk 0 [2]) =
      .bool ([1] == [2]) ∧
    Serializable.pyEq (fun a b => a == b)
        (SerializableInst.mk 0 [1]) (SerializableInst.mk 0 [2]) false =
      ([1] == [2]) :=
  (C6_structural_equality (fun a b => a == b)
      (SerializableInst.mk 0 [1]) (SerializableInst.mk 0 [2])
      (fun _ => 0) false).1 (Or.inl rfl)

/-- C10: trailing bytes are ignored by the buffer-level `deserialize`
entry points — appending any suffix `t` to a valid encoding leaves the
decoded value unchanged, both for `VarIntSerializer` (any `n ≤ 2^64 - 1`)
and for `BytesSerializer` (any payload within the read ceiling), because
`deserialize` wraps the buffer in a fresh stream and never checks that it
was fully consumed. -/
theorem C10_trailing_bytes_ignored (t : List Nat) :
    (∀ n : Nat, n ≤ 2 ^ 64 - 1 →
      VarIntSerializer.deserialize
          ((VarIntSerializer.stream_serialize (n : Int)).1 ++ t) = .ok n) ∧
    (∀ b : List Nat, b.length ≤ MAX_SIZE →
      BytesSerializer.deserialize
          ((BytesSerializer.stream_serialize b).1 ++ t) = .ok b) := by
  constructor
  · intro n hn
    have h1 : ((n : Int)) ≤ 0xffffffffffffffff := by
      have : (n : Int) ≤ ((2 ^ 64 - 1 : Nat) : Int) := by exact_mod_cast hn
      omega
    have h2 := varint_roundtrip_aux (n : Int) (by positivity) h1 t
    simp only [VarIntSerializer.deserialize, h2, Int.toNat_natCast]
  · intro b hb
    have hlen : ((b.length : Int)) ≤ 0xffffffffffffffff := by
      have : (MAX_SIZE : Int) ≤ 0xffffffffffffffff := by norm_num [MAX_SIZE]
      have : (b.length : Int) ≤ (MAX_SIZE : Int) := by exact_mod_cast hb
      omega
    have hser : BytesSerializer.stream_serialize b =
        ((VarIntSerializer.stream_serialize (b.length : Int)).1 ++ b,
          none) := by
      unfold BytesSerializer.stream_serialize
      have hnone := varint_serialize_none (b.length : Int) (by positivity) hlen
      cases hv : VarIntSerializer.stream_serialize (b.length : Int) with
      | mk w o =>
        rw [hv] at hnone
        simp only at hnone
        subst hnone
        rfl
    have hvar := varint_roundtrip_aux (b.length : Int) (by positivity) hlen
      (b ++ t)
    have hrd : ser_read (b ++ t) b.length = (.ok b, t) := by
      rw [ser_read_ok _ _ hb (by simp), List.take_left' rfl,
        List.drop_left' rfl]
    rw [hser]
    simp only [List.append_assoc]
    simp only [BytesSerializer.deserialize, BytesSerializer.stream_deserialize,
      hvar, Int.toNat_natCast, hrd]

theorem C10_witness :
    VarIntSerializer.deserialize
        ((VarIntSerializer.stream_serialize ((5 : Nat) : Int)).1 ++ [9, 9]) =
      .ok 5 :=
  (C10_trailing_bytes_ignored [9, 9]).1 5 (by norm_num)
